import Mathlib

/-!
Verification of the supply-chain module of the truyGoc repository.

The embedded code is the `SupplyChain` TypeScript class (Aptos ledger
adapter: `mintProduct`, `transferProduct`, `getProductInfo`,
`checkOnChainExist`, `verifyProduct`, `generateProductQrData`) together
with the Hono HTTP existence-check endpoint `app.get('/')`.

Modelling conventions:
* JavaScript runtime values that flow through `JSON.stringify` /
  `JSON.parse` are embedded as the inductive `JsValue` (strings, booleans,
  null, `Date` objects, and plain objects with insertion-ordered fields).
  `JSON.stringify` and `JSON.parse` are modelled by `jsonStringify` and
  `jsonParse` on the fragment of JSON the module exercises: strings
  (with escapes), objects, `true`/`false`/`null`; numbers, arrays and
  surrogate escapes do not occur in any payload the module produces and
  are rejected by the model parser.
* `Buffer.from(string)` / `.toString('utf8')` are the UTF-8 codec
  `utf8Encode` / `utf8Decode` (invalid sequences decode to U+FFFD, as
  Node never throws there), and `.toString('hex')` / `Buffer.from(_, 'hex')`
  are `hexEncode` / `hexDecode` (Node stops at the first invalid pair).
* The Aptos ledger is a state `ChainState` mapping a product id to the
  raw `view` response fields; the Aptos SDK client is abstracted to the
  `EntryFunctionPayload` a mutating call would submit, which is exactly
  the observable the TypeScript builds before handing it to the SDK.
-/

mutual

/-- JavaScript runtime value, restricted to the shapes that flow through
the supply-chain module: strings, booleans, `null`, `Date` objects
(carried as their millisecond timestamp), and plain objects. -/
inductive JsValue where
  | str (s : String)
  | jbool (b : Bool)
  | jnull
  | date (ms : Int)
  | obj (fields : JsFields)
  deriving DecidableEq

/-- Insertion-ordered field list of a JavaScript object. -/
inductive JsFields where
  | nil
  | cons (key : String) (v : JsValue) (rest : JsFields)
  deriving DecidableEq
end

/-- The double-quote character. -/
def cQuote : Char := Char.ofNat 34

/-- The backslash character. -/
def cBack : Char := Char.ofNat 92

/-- The opening-brace character. -/
def cLBrace : Char := Char.ofNat 123

/-- The closing-brace character. -/
def cRBrace : Char := Char.ofNat 125

/-- Lowercase hexadecimal digit for `n < 16`, as produced by Node's
`Buffer.prototype.toString('hex')`. -/
def hexDigitChar (n : Nat) : Char :=
  if n < 10 then Char.ofNat (48 + n) else Char.ofNat (87 + n)

/-- Value of a hexadecimal digit character, if it is one. -/
def hexVal (c : Char) : Option Nat :=
  if 48 ≤ c.toNat ∧ c.toNat ≤ 57 then some (c.toNat - 48)
  else if 97 ≤ c.toNat ∧ c.toNat ≤ 102 then some (c.toNat - 87)
  else if 65 ≤ c.toNat ∧ c.toNat ≤ 70 then some (c.toNat - 55)
  else none

/-- `Buffer.prototype.toString('hex')`: each byte becomes two lowercase
hex digits. -/
def hexEncode : List Nat → List Char
  | [] => []
  | b :: bs => hexDigitChar (b / 16) :: hexDigitChar (b % 16) :: hexEncode bs

/-- `Buffer.from(s, 'hex')`: consume hex-digit pairs, stopping at the
first character pair that is not two hex digits (Node truncates there
rather than throwing; a trailing odd digit is likewise dropped). -/
def hexDecode : List Char → List Nat
  | c1 :: c2 :: rest =>
    match hexVal c1, hexVal c2 with
    | some a, some b => (16 * a + b) :: hexDecode rest
    | _, _ => []
  | _ => []

/-- UTF-8 encoding of one scalar value (`Buffer.from` on a JS string). -/
def utf8EncodeChar (c : Char) : List Nat :=
  let n := c.toNat
  if n < 128 then [n]
  else if n < 2048 then [192 + n / 64, 128 + n % 64]
  else if n < 65536 then [224 + n / 4096, 128 + (n / 64) % 64, 128 + n % 64]
  else [240 + n / 262144, 128 + (n / 4096) % 64, 128 + (n / 64) % 64, 128 + n % 64]

/-- UTF-8 encoding of a string. -/
def utf8Encode (s : String) : List Nat :=
  (s.data.map utf8EncodeChar).flatten

/-- Whether a byte is a UTF-8 continuation byte. -/
def contByte (b : Nat) : Bool := 128 ≤ b && b ≤ 191

/-- The U+FFFD replacement character. -/
def replChar : Char := Char.ofNat 65533

/-- UTF-8 decoding worker, fuelled so that the recursion is structural
(each step consumes at least one byte, so `fuel = length` suffices). -/
def utf8DecodeF : Nat → List Nat → List Char
  | 0, _ => []
  | _ + 1, [] => []
  | fuel + 1, b :: bs =>
    if b < 128 then Char.ofNat b :: utf8DecodeF fuel bs
    else if 194 ≤ b ∧ b ≤ 223 then
      match bs with
      | b2 :: bs2 =>
        if contByte b2 then Char.ofNat ((b - 192) * 64 + (b2 - 128)) :: utf8DecodeF fuel bs2
        else replChar :: utf8DecodeF fuel bs
      | [] => [replChar]
    else if 224 ≤ b ∧ b ≤ 239 then
      match bs with
      | b2 :: b3 :: bs3 =>
        if (contByte b2 && contByte b3
            && (b != 224 || 160 ≤ b2)
            && (b != 237 || b2 ≤ 159)) then
          Char.ofNat ((b - 224) * 4096 + (b2 - 128) * 64 + (b3 - 128)) :: utf8DecodeF fuel bs3
        else replChar :: utf8DecodeF fuel bs
      | _ => replChar :: utf8DecodeF fuel bs
    else if 240 ≤ b ∧ b ≤ 244 then
      match bs with
      | b2 :: b3 :: b4 :: bs4 =>
        if (contByte b2 && contByte b3 && contByte b4
            && (b != 240 || 144 ≤ b2)
            && (b != 244 || b2 ≤ 143)) then
          Char.ofNat ((b - 240) * 262144 + (b2 - 128) * 4096 + (b3 - 128) * 64 + (b4 - 128))
            :: utf8DecodeF fuel bs4
        else replChar :: utf8DecodeF fuel bs
      | _ => replChar :: utf8DecodeF fuel bs
    else replChar :: utf8DecodeF fuel bs

/-- UTF-8 decoding as performed by `Buffer.prototype.toString('utf8')`:
well-formed sequences decode to their scalar value, malformed bytes
decode to U+FFFD (Node never throws on invalid UTF-8). -/
def utf8Decode (bs : List Nat) : List Char := utf8DecodeF bs.length bs

/-- Escape one character the way `JSON.stringify` does inside a string
literal: quote and backslash get a backslash escape, the five controls
with short forms use them, other controls use `\u00XX`, and every other
character is emitted as-is. -/
def escapeChar (c : Char) : List Char :=
  if c = cQuote then [cBack, cQuote]
  else if c = cBack then [cBack, cBack]
  else if c = Char.ofNat 8 then [cBack, 'b']
  else if c = Char.ofNat 9 then [cBack, 't']
  else if c = Char.ofNat 10 then [cBack, 'n']
  else if c = Char.ofNat 12 then [cBack, 'f']
  else if c = Char.ofNat 13 then [cBack, 'r']
  else if c.toNat < 32 then
    [cBack, 'u', '0', '0', hexDigitChar (c.toNat / 16), hexDigitChar (c.toNat % 16)]
  else [c]

/-- The body of a `JSON.stringify` string literal. -/
def escapeString (s : String) : List Char :=
  (s.data.map escapeChar).flatten

/-- A `JSON.stringify` string literal, quotes included. -/
def quoteString (s : String) : String :=
  String.mk (cQuote :: escapeString s ++ [cQuote])

/-- Left-pad the decimal representation of `n` with zeros to width `w`. -/
def padNum (w : Nat) (n : Nat) : String :=
  let s := Nat.repr n
  String.mk (List.replicate (w - s.length) '0') ++ s

/-- `Date.prototype.toISOString` on a millisecond timestamp: civil date
via the standard era/day-of-era conversion, then `YYYY-MM-DDTHH:mm:ss.sssZ`. -/
def dateToIso (ms : Int) : String :=
  let day : Int := Int.fdiv ms 86400000
  let msod : Nat := (ms - day * 86400000).toNat
  let z : Int := day + 719468
  let era : Int := Int.fdiv z 146097
  let doe : Nat := (z - era * 146097).toNat
  let yoe : Nat := (doe - doe / 1460 + doe / 36524 - doe / 146096) / 365
  let doy : Nat := doe - (365 * yoe + yoe / 4 - yoe / 100)
  let mp : Nat := (5 * doy + 2) / 153
  let d : Nat := doy - (153 * mp + 2) / 5 + 1
  let m : Nat := if mp < 10 then mp + 3 else mp - 9
  let y : Int := (yoe : Int) + era * 400 + (if m ≤ 2 then 1 else 0)
  padNum 4 y.toNat ++ "-" ++ padNum 2 m ++ "-" ++ padNum 2 d ++ "T"
    ++ padNum 2 (msod / 3600000) ++ ":" ++ padNum 2 (msod / 60000 % 60) ++ ":"
    ++ padNum 2 (msod / 1000 % 60) ++ "." ++ padNum 3 (msod % 1000) ++ "Z"

mutual

/-- `JSON.stringify` on the embedded fragment of JavaScript values.
A `Date` serializes through its `toJSON`, i.e. as the quoted ISO string;
objects serialize as `{"k":v,...}` in insertion order with no spaces. -/
def jsonStringify : JsValue → String
  | .str s => quoteString s
  | .jbool b => if b then "true" else "false"
  | .jnull => "null"
  | .date ms => quoteString (dateToIso ms)
  | .obj fs => String.mk [cLBrace] ++ stringifyFields fs ++ String.mk [cRBrace]

/-- Comma-separated `"key":value` members of an object literal. -/
def stringifyFields : JsFields → String
  | .nil => ""
  | .cons k v rest =>
    quoteString k ++ ":" ++ jsonStringify v
      ++ (match rest with
          | .nil => ""
          | .cons _ _ _ => "," ++ stringifyFields rest)

end

/-- Parse the body of a JSON string literal (the opening quote already
consumed), returning the decoded characters and the input after the
closing quote. Handles the escapes `JSON.parse` accepts; `\uXXXX` is
supported for non-surrogate code points (the module never produces
surrogate escapes). Raw control characters are rejected as in JSON. -/
def parseStringBody : Nat → List Char → Option (List Char × List Char)
  | 0, _ => none
  | _ + 1, [] => none
  | fuel + 1, c :: cs =>
    if c = cQuote then some ([], cs)
    else if c = cBack then
      match cs with
      | [] => none
      | e :: cs2 =>
        if e = cQuote ∨ e = cBack ∨ e = '/' then
          (parseStringBody fuel cs2).map (fun p => (e :: p.1, p.2))
        else if e = 'b' then
          (parseStringBody fuel cs2).map (fun p => (Char.ofNat 8 :: p.1, p.2))
        else if e = 't' then
          (parseStringBody fuel cs2).map (fun p => (Char.ofNat 9 :: p.1, p.2))
        else if e = 'n' then
          (parseStringBody fuel cs2).map (fun p => (Char.ofNat 10 :: p.1, p.2))
        else if e = 'f' then
          (parseStringBody fuel cs2).map (fun p => (Char.ofNat 12 :: p.1, p.2))
        else if e = 'r' then
          (parseStringBody fuel cs2).map (fun p => (Char.ofNat 13 :: p.1, p.2))
        else if e = 'u' then
          match cs2 with
          | h1 :: h2 :: h3 :: h4 :: cs3 =>
            match hexVal h1, hexVal h2, hexVal h3, hexVal h4 with
            | some a, some b, some c2, some d =>
              let n := ((a * 16 + b) * 16 + c2) * 16 + d
              if 55296 ≤ n ∧ n ≤ 57343 then none
              else (parseStringBody fuel cs3).map (fun p => (Char.ofNat n :: p.1, p.2))
            | _, _, _, _ => none
          | _ => none
        else none
    else if c.toNat < 32 then none
    else (parseStringBody fuel cs).map (fun p => (c :: p.1, p.2))

mutual

/-- Parse one JSON value at the head of the input, on the fragment the
module exercises: string, object, `true`, `false`, `null` (no numbers,
arrays or interior whitespace — none of which occur in any payload the
module writes). Returns the value and the remaining input. -/
def parseJsonValue : Nat → List Char → Option (JsValue × List Char)
  | 0, _ => none
  | _ + 1, [] => none
  | fuel + 1, c :: cs =>
    if c = cQuote then
      match parseStringBody (cs.length + 1) cs with
      | some (chars, rest) => some (.str (String.mk chars), rest)
      | none => none
    else if c = cLBrace then
      match cs with
      | c2 :: rest2 =>
        if c2 = cRBrace then some (.obj .nil, rest2)
        else
          match parseJsonFields fuel (c2 :: rest2) with
          | some (fs, rest) => some (.obj fs, rest)
          | none => none
      | [] => none
    else if c = 't' then
      match cs with
      | 'r' :: 'u' :: 'e' :: rest => some (.jbool true, rest)
      | _ => none
    else if c = 'f' then
      match cs with
      | 'a' :: 'l' :: 's' :: 'e' :: rest => some (.jbool false, rest)
      | _ => none
    else if c = 'n' then
      match cs with
      | 'u' :: 'l' :: 'l' :: rest => some (.jnull, rest)
      | _ => none
    else none

/-- Parse the nonempty member list of a JSON object, starting at the
first `"key"` and consuming through the closing brace. -/
def parseJsonFields : Nat → List Char → Option (JsFields × List Char)
  | 0, _ => none
  | _ + 1, [] => none
  | fuel + 1, c :: cs =>
    if c = cQuote then
      match parseStringBody (cs.length + 1) cs with
      | some (kcs, rest1) =>
        match rest1 with
        | ':' :: rest2 =>
          match parseJsonValue fuel rest2 with
          | some (v, rest3) =>
            match rest3 with
            | c3 :: rest4 =>
              if c3 = ',' then
                match parseJsonFields fuel rest4 with
                | some (fs, rest5) => some (.cons (String.mk kcs) v fs, rest5)
                | none => none
              else if c3 = cRBrace then some (.cons (String.mk kcs) v .nil, rest4)
              else none
            | [] => none
          | none => none
        | _ => none
      | none => none
    else none

end

/-- `JSON.parse` on the embedded fragment: parse one value and require
the input to be fully consumed; any failure models the `SyntaxError`
that `JSON.parse` throws. -/
def jsonParse (s : String) : Option JsValue :=
  match parseJsonValue (s.length + 1) s.data with
  | some (v, []) => some v
  | _ => none

/-- The `ProductMetadata` interface of the module. `dateManufactured`
is a JS `Date`, embedded as its millisecond timestamp; the two optional
fields are `Option`s, absent meaning the property is not present on the
object (and hence omitted by `JSON.stringify`). -/
structure ProductMetadata where
  name : String
  description : String
  dateManufactured : Int
  ipfsLink : Option String
  additionalInfo : Option (List (String × String))
  deriving DecidableEq

/-- Object fields for the `additionalInfo` string map. -/
def mapFields : List (String × String) → JsFields
  | [] => .nil
  | (k, v) :: rest => .cons k (.str v) (mapFields rest)

/-- Append two field lists. -/
def appendFields : JsFields → JsFields → JsFields
  | .nil, gs => gs
  | .cons k v rest, gs => .cons k v (appendFields rest gs)

/-- The JavaScript runtime value of a `ProductMetadata` object, fields
in the interface's declaration order, absent optionals omitted. This is
the value `mintProduct` hands to `JSON.stringify`. -/
def metadataRuntimeValue (m : ProductMetadata) : JsValue :=
  .obj (appendFields
    (.cons "name" (.str m.name)
      (.cons "description" (.str m.description)
        (.cons "dateManufactured" (.date m.dateManufactured) .nil)))
    (appendFields
      (match m.ipfsLink with
       | some l => .cons "ipfsLink" (.str l) .nil
       | none => .nil)
      (match m.additionalInfo with
       | some kvs => .cons "additionalInfo" (.obj (mapFields kvs)) .nil
       | none => .nil)))

/-- `MODULE_ADDRESS` constant. -/
def MODULE_ADDRESS : String := "0x1"

/-- `MODULE_NAME` constant. -/
def MODULE_NAME : String := "SupplyChain"

/-- `RESOURCE_NAME` constant. -/
def RESOURCE_NAME : String := "product_manager"

/-- `MODULE` constant. -/
def MODULE : String := MODULE_ADDRESS ++ "::" ++ MODULE_NAME ++ "::" ++ RESOURCE_NAME

/-- `MINT_PRODUCT` function name. -/
def MINT_PRODUCT : String := MODULE ++ "::mint_product"

/-- `GET_PRODUCT_INFO` function name. -/
def GET_PRODUCT_INFO : String := MODULE ++ "::get_product_info"

/-- `TRANSFER_PRODUCT` function name. -/
def TRANSFER_PRODUCT : String := MODULE ++ "::transfer_product"

/-- An `AptosAccount`, abstracted to the only observable the module
uses of it: its `address()`. -/
structure AptosAccount where
  address : String
  deriving DecidableEq

/-- The `Types.EntryFunctionPayload` a mutating call submits. -/
structure EntryFunctionPayload where
  function : String
  type_arguments : List String
  arguments : List String
  deriving DecidableEq

/-- State of a `SupplyChain` instance: the node URL held by the
`AptosClient`, and the optional company account. -/
structure SupplyChainState where
  nodeUrl : String
  companyAccount : Option AptosAccount
  deriving DecidableEq

/-- The `SupplyChain` constructor: stores the client URL and, when a
private key is provided, derives the company account from it. Key
derivation is the Aptos SDK's (ed25519, outside the repository), so it
is abstracted as the parameter `derive`. -/
def mkSupplyChain (derive : String → AptosAccount) (nodeUrl : String)
    (privateKey : Option String) : SupplyChainState :=
  { nodeUrl := nodeUrl, companyAccount := privateKey.map derive }

/-- The exact message of the error both mutating methods throw when the
instance has no company account. -/
def noAccountMsg : String :=
  "Company account not initialized. Provide a private key in the constructor."

/-- The hex string `mintProduct` stores on chain for a metadata record:
`Buffer.from(JSON.stringify(metadata)).toString('hex')`, with the `0x`
prefix the payload template adds. -/
def mintSerializeMetadata (m : ProductMetadata) : String :=
  "0x" ++ String.mk (hexEncode (utf8Encode (jsonStringify (metadataRuntimeValue m))))

/-- `SupplyChain.mintProduct`: with no company account it throws
`noAccountMsg` before any transaction is built, signed or submitted
(the `Except.error` branch constructs nothing); otherwise the entry
function payload it builds and submits is returned. -/
def mintProduct (sc : SupplyChainState) (productId : String)
    (metadata : ProductMetadata) : Except String EntryFunctionPayload :=
  match sc.companyAccount with
  | none => .error noAccountMsg
  | some _ =>
    .ok { function := MINT_PRODUCT
          type_arguments := []
          arguments := [productId, mintSerializeMetadata metadata] }

/-- `SupplyChain.transferProduct`: with no company account it throws
`noAccountMsg` before any transaction is built, signed or submitted;
otherwise the entry function payload it builds and submits is returned.
There is no check of any kind on `newOwnerAddress`. -/
def transferProduct (sc : SupplyChainState) (productId : String)
    (newOwnerAddress : String) : Except String EntryFunctionPayload :=
  match sc.companyAccount with
  | none => .error noAccountMsg
  | some _ =>
    .ok { function := TRANSFER_PRODUCT
          type_arguments := []
          arguments := [newOwnerAddress, productId] }

/-- The raw fields of a successful `client.view` response for a product:
`[id, manufacturer, currentOwner, metadataHex, historyArray]`. -/
structure RawProduct where
  id : String
  manufacturer : String
  currentOwner : String
  metadataHex : String
  history : List String
  deriving DecidableEq

/-- On-chain state as observed through `client.view`: either the raw
response fields for a product id, or `none` when the lookup fails
(product not on the ledger — the `view` rejection is caught by
`getProductInfo`'s `try/catch`). -/
def ChainState : Type := String → Option RawProduct

/-- The `ProductInfo` record `getProductInfo` returns. Its TypeScript
type says `metadata: ProductMetadata`, but at runtime the field holds
whatever `JSON.parse` produced — the cast `as ProductMetadata` checks
nothing — so the embedding gives the field its true runtime type. -/
structure ProductInfo where
  id : String
  manufacturer : String
  currentOwner : String
  metadata : JsValue
  history : List String
  deriving DecidableEq

/-- The metadata-decoding slice of `getProductInfo`:
`JSON.parse(Buffer.from(metadataHex.substring(2), 'hex').toString('utf8'))`,
`none` modelling a thrown `SyntaxError`. -/
def decodeStoredMetadata (metadataHex : String) : Option JsValue :=
  jsonParse (String.mk (utf8Decode (hexDecode ((metadataHex.drop 2).data))))

/-- `SupplyChain.getProductInfo`: view the product, decode its metadata,
and return the assembled record; every failure — missing product or
undecodable metadata alike — lands in the `catch` block and yields
`null` (`none`). -/
def getProductInfo (chain : ChainState) (productId : String) : Option ProductInfo :=
  match chain productId with
  | none => none
  | some raw =>
    match decodeStoredMetadata raw.metadataHex with
    | none => none
    | some j =>
      some { id := raw.id
             manufacturer := raw.manufacturer
             currentOwner := raw.currentOwner
             metadata := j
             history := raw.history }

/-- `SupplyChain.checkOnChainExist`: `getProductInfo(id) !== null`. -/
def checkOnChainExist (chain : ChainState) (productId : String) : Bool :=
  (getProductInfo chain productId).isSome

/-- Result record of `verifyProduct`; the last three fields are the
optional properties of the returned object. The `exists` property is
named `exists_` because `exists` is reserved in Lean. -/
structure VerifyResult where
  exists_ : Bool
  isAuthentic : Bool
  manufacturer : Option String
  currentOwner : Option String
  transferCount : Option Nat
  deriving DecidableEq

/-- `SupplyChain.verifyProduct`: look the product up; a missing product
yields `{exists: false, isAuthentic: false}` with the optional fields
absent, otherwise authenticity is the manufacturer comparison and the
details are filled in. -/
def verifyProduct (chain : ChainState) (productId : String)
    (expectedManufacturer : String) : VerifyResult :=
  match getProductInfo chain productId with
  | none =>
    { exists_ := false, isAuthentic := false
      manufacturer := none, currentOwner := none, transferCount := none }
  | some p =>
    { exists_ := true
      isAuthentic := p.manufacturer == expectedManufacturer
      manufacturer := some p.manufacturer
      currentOwner := some p.currentOwner
      transferCount := some p.history.length }

/-- `SupplyChain.generateProductQrData`: `if (dAppUrl)` is a JavaScript
truthiness test, so the URL form is produced exactly when a non-empty
URL is passed; otherwise the scheme-prefixed bare form. -/
def generateProductQrData (productId : String) (dAppUrl : Option String) : String :=
  match dAppUrl with
  | some u =>
    if u = "" then "supplychain:product:" ++ productId
    else u ++ "/verify?id=" ++ productId
  | none => "supplychain:product:" ++ productId

/-- The marker of the URL payload form, `/verify?id=`. -/
def qrMarker : String := "/verify?id="

/-- The prefix of the bare payload form, `supplychain:product:`. -/
def qrScheme : String := "supplychain:product:"

/-- Split a character list at the first occurrence of `pat`, returning
the part before the occurrence and the part after it. -/
def splitFirst (pat : List Char) : List Char → Option (List Char × List Char)
  | [] => if pat.isPrefixOf ([] : List Char) then some ([], []) else none
  | c :: cs =>
    if pat.isPrefixOf (c :: cs) then some ([], (c :: cs).drop pat.length)
    else (splitFirst pat cs).map fun p => (c :: p.1, p.2)

/-- Modelled from the spec: `fromScanPayload(string) -> id | ParseError`
is specified but absent from the repository sources (only
`generateProductQrData`, the `toScanPayload` direction, exists). Per the
spec it "must accept both forms and reject any other string": a payload
starting with `supplychain:product:` yields the rest; otherwise a
payload containing `/verify?id=` yields what follows the first
occurrence; anything else is a `ParseError` (`none`). -/
def fromScanPayload (s : String) : Option String :=
  if qrScheme.data.isPrefixOf s.data then
    some (String.mk (s.data.drop qrScheme.data.length))
  else
    match splitFirst qrMarker.data s.data with
    | some p => some (String.mk p.2)
    | none => none

/-- JSON body of a Hono `c.json` response from the root endpoint. -/
def missingIdResponse : JsValue := .obj (.cons "message" (.str "MISSING ID") .nil)

/-- The `app.get('/')` endpoint: reads the query parameter `i` (the
product id; `none` when absent), answers `{message: 'MISSING ID'}`
without touching the chain when it is absent or empty (`if (!id)` is a
truthiness test), and otherwise `{id, exist}` from `checkOnChainExist`.
The second component lists the ids looked up on chain during the
request — the endpoint's only effect. -/
def appGetRoot (chain : ChainState) (iParam : Option String) : JsValue × List String :=
  match iParam with
  | none => (missingIdResponse, [])
  | some id =>
    if id = "" then (missingIdResponse, [])
    else (.obj (.cons "id" (.str id)
           (.cons "exist" (.jbool (checkOnChainExist chain id)) .nil)), [id])

/-- A chain holding one product `P1` whose stored metadata `0x7b7d` is
the hex of the empty JSON object, with one history entry. -/
def sampleRaw : RawProduct :=
  { id := "P1", manufacturer := "0xM", currentOwner := "0xO"
    metadataHex := "0x7b7d", history := ["0xO"] }

/-- Chain state exposing `sampleRaw` under id `P1`. -/
def chainSample : ChainState := fun id => if id = "P1" then some sampleRaw else none

/-- A product whose stored metadata payload `0x` cannot be decoded:
`substring(2)` leaves the empty string, whose `JSON.parse` throws. -/
def badRaw : RawProduct :=
  { id := "PX", manufacturer := "0xM", currentOwner := "0xM"
    metadataHex := "0x", history := [] }

/-- Chain state exposing the undecodable `badRaw` under id `PX`. -/
def chainBad : ChainState := fun id => if id = "PX" then some badRaw else none

/-- Chain state with no products. -/
def emptyChain : ChainState := fun _ => none

/-- C9: a `SupplyChain` constructed without a private key has no company
account, so `mintProduct` and `transferProduct` both fail with the exact
error `'Company account not initialized. Provide a private key in the
constructor.'`; in the model the `Except.error` branch is taken before
any entry-function payload is constructed, so no transaction is built,
signed or submitted. -/
theorem mint_transfer_require_account (derive : String → AptosAccount)
    (url pid owner : String) (m : ProductMetadata) :
    mintProduct (mkSupplyChain derive url none) pid m =
      .error "Company account not initialized. Provide a private key in the constructor." ∧
    transferProduct (mkSupplyChain derive url none) pid owner =
      .error "Company account not initialized. Provide a private key in the constructor." :=
  ⟨rfl, rfl⟩

/-- C2: `verifyProduct` returns exactly
`{exists: false, isAuthentic: false}` with the optional fields absent
when the lookup finds nothing (and, being a total function of the
lookup's result, raises no error), and otherwise fills in
`isAuthentic = (manufacturer == expected)` — equivalently
`exists && manufacturer == expected` — together with the manufacturer,
current owner and `transferCount = history.length`. -/
theorem verifyProduct_spec (chain : ChainState) (pid em : String) :
    (getProductInfo chain pid = none →
      verifyProduct chain pid em =
        { exists_ := false, isAuthentic := false
          manufacturer := none, currentOwner := none, transferCount := none }) ∧
    (∀ p, getProductInfo chain pid = some p →
      verifyProduct chain pid em =
        { exists_ := true, isAuthentic := p.manufacturer == em
          manufacturer := some p.manufacturer, currentOwner := some p.currentOwner
          transferCount := some p.history.length }) := by
  refine ⟨fun h => ?_, fun p h => ?_⟩ <;> simp [verifyProduct, h]

/-- Witness for C2 at a concrete chain: an existing product with one
transfer, and a missing id. -/
theorem verifyProduct_spec_witness :
    verifyProduct chainSample "P1" "0xM" =
      { exists_ := true, isAuthentic := true, manufacturer := some "0xM"
        currentOwner := some "0xO", transferCount := some 1 } ∧
    verifyProduct chainSample "P2" "0xM" =
      { exists_ := false, isAuthentic := false
        manufacturer := none, currentOwner := none, transferCount := none } := by
  constructor
  · have h := (verifyProduct_spec chainSample "P1" "0xM").2
      { id := "P1", manufacturer := "0xM", currentOwner := "0xO"
        metadata := .obj .nil, history := ["0xO"] } (by decide)
    simpa using h
  · exact (verifyProduct_spec chainSample "P2" "0xM").1 (by decide)

/-- C3 counterexample: a transfer to the signer's own address is not
rejected — `transferProduct` submits the transfer payload for it like
any other call; no `InvalidTransfer` rejection exists in the code. -/
theorem transferProduct_self_submits :
    transferProduct { nodeUrl := "n", companyAccount := some { address := "0xA" } } "P1" "0xA"
      = .ok { function := TRANSFER_PRODUCT, type_arguments := []
              arguments := ["0xA", "P1"] } := rfl

/-- C3 amended: `transferProduct` performs no self-transfer check at
all; for every account, a transfer whose new owner equals the signer's
own address builds and submits the usual transfer transaction. -/
theorem transferProduct_no_self_check (url pid : String) (a : AptosAccount) :
    transferProduct { nodeUrl := url, companyAccount := some a } pid a.address
      = .ok { function := TRANSFER_PRODUCT, type_arguments := []
              arguments := [a.address, pid] } := rfl

/-- C4 counterexample: `PX` is on the ledger but its payload `0x` cannot
be decoded, and `getProductInfo` reports it exactly as it reports the
nonexistent `PY` — `null` in both cases, with no `MalformedMetadata`
error distinct from the not-found outcome. -/
theorem query_malformed_equals_notfound :
    chainBad "PX" = some badRaw ∧
    decodeStoredMetadata badRaw.metadataHex = none ∧
    getProductInfo chainBad "PX" = none ∧
    getProductInfo chainBad "PY" = none := by
  exact ⟨by decide, by decide, by decide, by decide⟩

/-- C4 amended: when the stored metadata payload cannot be decoded,
`getProductInfo` returns `null` — the very same outcome as for a product
that is not on the ledger; the `try/catch` collapses the decode failure,
and no `MalformedMetadata` error exists. -/
theorem query_malformed_yields_null (chain : ChainState) (pid : String) (raw : RawProduct)
    (h1 : chain pid = some raw) (h2 : decodeStoredMetadata raw.metadataHex = none) :
    getProductInfo chain pid = none := by
  simp [getProductInfo, h1, h2]

/-- Witness for the amended C4 at the concrete corrupted chain. -/
theorem query_malformed_yields_null_witness :
    getProductInfo chainBad "PX" = none :=
  query_malformed_yields_null chainBad "PX" badRaw (by decide) (by decide)

/-- C7 counterexample: product `PX` is on the ledger (its lookup is not
a not-found outcome — the view succeeds and returns `badRaw`), yet its
metadata fails to decode and `checkOnChainExist` reports plain `false`:
the decode error is swallowed into the not-found answer instead of
being surfaced. -/
theorem exists_swallows_decode_failure :
    chainBad "PX" = some badRaw ∧ checkOnChainExist chainBad "PX" = false := by
  exact ⟨by decide, by decide⟩

/-- C7 amended: `checkOnChainExist` is true exactly when
`getProductInfo` returns a product; since `getProductInfo` collapses
every failure into `null`, any failure — in particular a metadata
decode failure on a product that is on the ledger — yields `false`
rather than a surfaced error. -/
theorem exists_iff_query_some :
    (∀ (chain : ChainState) (pid : String),
      checkOnChainExist chain pid = (getProductInfo chain pid).isSome) ∧
    (∀ (chain : ChainState) (pid : String) (raw : RawProduct),
      chain pid = some raw → decodeStoredMetadata raw.metadataHex = none →
      checkOnChainExist chain pid = false) := by
  refine ⟨fun _ _ => rfl, fun chain pid raw h1 h2 => ?_⟩
  simp [checkOnChainExist, getProductInfo, h1, h2]

/-- Witness for the amended C7 at the concrete corrupted chain. -/
theorem exists_iff_query_some_witness :
    checkOnChainExist chainBad "PX" = (getProductInfo chainBad "PX").isSome ∧
    checkOnChainExist chainBad "PX" = false :=
  ⟨exists_iff_query_some.1 chainBad "PX",
   exists_iff_query_some.2 chainBad "PX" badRaw (by decide) (by decide)⟩

/-- C6 counterexample: the app URL is given but empty, and the code's
truthiness test produces the bare form instead of the URL form
`{appUrl}/verify?id={id}`. -/
theorem generateQr_empty_url_bare :
    generateProductQrData "1" (some "") = "supplychain:product:1" ∧
    generateProductQrData "1" (some "") ≠ "" ++ "/verify?id=" ++ "1" := by
  exact ⟨rfl, by decide⟩

/-- C6 amended: `generateProductQrData` returns `{appUrl}/verify?id={id}`
when a non-empty app URL is given, and the scheme-prefixed bare form
`supplychain:product:{id}` when the URL is absent — or empty, which the
truthiness test treats as absent. -/
theorem generateQr_spec (pid : String) :
    (∀ u, u ≠ "" → generateProductQrData pid (some u) = u ++ "/verify?id=" ++ pid) ∧
    generateProductQrData pid none = "supplychain:product:" ++ pid ∧
    generateProductQrData pid (some "") = "supplychain:product:" ++ pid := by
  refine ⟨fun u hu => ?_, rfl, by simp [generateProductQrData]⟩
  simp [generateProductQrData, hu]

/-- Witness for the amended C6 at concrete inputs. -/
theorem generateQr_spec_witness :
    generateProductQrData "7" (some "https://e.com") = "https://e.com" ++ "/verify?id=" ++ "7" ∧
    generateProductQrData "7" none = "supplychain:product:" ++ "7" :=
  ⟨(generateQr_spec "7").1 "https://e.com" (by decide), (generateQr_spec "7").2.1⟩

/-- C10: when the expected query parameter `i` is absent or empty, the
endpoint answers `{message: 'MISSING ID'}` and performs no on-chain
lookup (its lookup trace is empty). -/
theorem endpoint_missing_id (chain : ChainState) (p : Option String)
    (h : p = none ∨ p = some "") :
    appGetRoot chain p = (missingIdResponse, []) := by
  rcases h with h | h <;> subst h <;> simp [appGetRoot]

/-- Witness for C10: absent and empty parameter on a concrete chain. -/
theorem endpoint_missing_id_witness :
    appGetRoot emptyChain none = (missingIdResponse, []) ∧
    appGetRoot emptyChain (some "") = (missingIdResponse, []) :=
  ⟨endpoint_missing_id emptyChain none (Or.inl rfl),
   endpoint_missing_id emptyChain (some "") (Or.inr rfl)⟩

/-- C8 counterexample: a request that supplies the id parameter with the
empty string is answered with `{message: 'MISSING ID'}`, not with the
`{id, exist}` object the claim requires for every supplied parameter. -/
theorem endpoint_empty_id_not_exist_response :
    (appGetRoot emptyChain (some "")).1 = missingIdResponse ∧
    (appGetRoot emptyChain (some "")).1 ≠
      .obj (.cons "id" (.str "")
        (.cons "exist" (.jbool (checkOnChainExist emptyChain "")) .nil)) := by
  exact ⟨rfl, by decide⟩

/-- C8 amended: for every request supplying a non-empty id parameter,
the response is exactly `{id, exist}` with `exist = checkOnChainExist(id)`,
and the only effect is that single existence lookup — the endpoint is a
thin facade over the existence check. -/
theorem endpoint_id_exist (chain : ChainState) (s : String) (h : s ≠ "") :
    appGetRoot chain (some s) =
      (.obj (.cons "id" (.str s)
        (.cons "exist" (.jbool (checkOnChainExist chain s)) .nil)), [s]) := by
  simp [appGetRoot, h]

/-- Witness for the amended C8 at a concrete request. -/
theorem endpoint_id_exist_witness :
    appGetRoot emptyChain (some "9") =
      (.obj (.cons "id" (.str "9")
        (.cons "exist" (.jbool (checkOnChainExist emptyChain "9")) .nil)), ["9"]) :=
  endpoint_id_exist emptyChain "9" (by decide)

/-- A concrete valid metadata record: mandatory fields only, the date
being the epoch `Date(0)`; the optional fields are absent. -/
def sampleMetadata : ProductMetadata :=
  { name := "Shoe", description := "Leather shoe", dateManufactured := 0
    ipfsLink := none, additionalInfo := none }

set_option maxRecDepth 8000 in
/-- C1: evaluating the codec at `sampleMetadata` exhibits the round-trip
failure. `mintProduct` serializes the record with `JSON.stringify`, which
runs `Date.prototype.toJSON`; `getProductInfo` decodes with `JSON.parse`,
which never revives a `Date`. The decoded record therefore carries the
ISO string `"1970-01-01T00:00:00.000Z"` where the original runtime value
carries the `Date` object, and `decode(encode(m)) = m` fails — even
though the absent optional fields do round-trip as absent. -/
theorem metadata_roundtrip_loses_date :
    decodeStoredMetadata (mintSerializeMetadata sampleMetadata) =
      some (.obj (.cons "name" (.str "Shoe")
        (.cons "description" (.str "Leather shoe")
          (.cons "dateManufactured" (.str "1970-01-01T00:00:00.000Z") .nil)))) ∧
    metadataRuntimeValue sampleMetadata =
      .obj (.cons "name" (.str "Shoe")
        (.cons "description" (.str "Leather shoe")
          (.cons "dateManufactured" (.date 0) .nil))) ∧
    decodeStoredMetadata (mintSerializeMetadata sampleMetadata) ≠
      some (metadataRuntimeValue sampleMetadata) := by
  exact ⟨by decide, by decide, by decide⟩

/-- A prefix of an append that fits inside the first part is a prefix of
the first part. -/
theorem prefix_of_append_of_len_le {α : Type} {p L R : List α}
    (h : p <+: L ++ R) (hl : p.length ≤ L.length) : p <+: L := by
  have ht := List.prefix_iff_eq_take.mp h
  rw [List.take_append_eq_append_take, Nat.sub_eq_zero_of_le hl, List.take_zero,
    List.append_nil] at ht
  rw [ht]
  exact List.take_prefix _ _

/-- The marker `/verify?id=` has no nontrivial border: no proper
nonempty suffix of it is one of its prefixes. This is what makes the
first occurrence of the marker in `appUrl ++ marker ++ id` unambiguous
when `appUrl` itself contains no occurrence. -/
theorem qrMarker_no_border :
    ∀ k, k < qrMarker.data.length → 0 < k → ¬ (qrMarker.data.drop k <+: qrMarker.data) := by
  decide

/-- `splitFirst` at an input that starts with the (nonempty) pattern
splits right there. -/
theorem splitFirst_self (pat post : List Char) (h : pat ≠ []) :
    splitFirst pat (pat ++ post) = some ([], post) := by
  cases pat with
  | nil => exact absurd rfl h
  | cons a as =>
    have hp : (a :: as).isPrefixOf ((a :: as) ++ post) = true := by
      rw [List.isPrefixOf_iff_prefix]
      exact List.prefix_append _ _
    show splitFirst (a :: as) (a :: (as ++ post)) = some ([], post)
    rw [splitFirst]
    simp only [show a :: (as ++ post) = (a :: as) ++ post from rfl, hp, if_true]
    rw [List.drop_left]

/-- With no occurrence of the pattern in `pre` and no nontrivial border
of the pattern, `splitFirst` on `pre ++ pat ++ post` finds exactly the
explicit occurrence. -/
theorem splitFirst_append_of_not_infix (pat : List Char) (hne : pat ≠ [])
    (hnb : ∀ k, k < pat.length → 0 < k → ¬ (pat.drop k <+: pat)) :
    ∀ (pre post : List Char), ¬ (pat <:+: pre) →
      splitFirst pat (pre ++ pat ++ post) = some (pre, post) := by
  intro pre
  induction pre with
  | nil =>
    intro post _
    simpa using splitFirst_self pat post hne
  | cons c pre ih =>
    intro post hinf
    have hnp : pat.isPrefixOf (c :: (pre ++ pat ++ post)) = false := by
      rw [Bool.eq_false_iff, Ne, List.isPrefixOf_iff_prefix]
      intro hpre
      have hpre' : pat <+: (c :: pre) ++ (pat ++ post) := by
        simpa [List.append_assoc] using hpre
      rcases le_or_lt pat.length (c :: pre).length with hle | hlt
      · exact hinf (prefix_of_append_of_len_le hpre' hle).isInfix
      · obtain ⟨t, ht⟩ := hpre'
        have hd := congrArg (List.drop (c :: pre).length) ht
        rw [List.drop_append_eq_append_drop, List.drop_left] at hd
        have hdrop : (c :: pre).length - pat.length = 0 :=
          Nat.sub_eq_zero_of_le (Nat.le_of_lt hlt)
        rw [hdrop, List.drop_zero] at hd
        -- hd : pat.drop (c :: pre).length ++ t = pat ++ post
        have hpref2 : pat.drop (c :: pre).length <+: pat ++ post := ⟨t, hd⟩
        have hlen2 : (pat.drop (c :: pre).length).length ≤ pat.length := by
          simp [List.length_drop]
        exact hnb (c :: pre).length hlt (by simp)
          (prefix_of_append_of_len_le hpref2 hlen2)
    have hrest := ih post (fun hi => hinf (List.infix_cons hi))
    show splitFirst pat (c :: (pre ++ pat ++ post)) = some (c :: pre, post)
    rw [splitFirst]
    simp only [hnp, Bool.false_eq_true, if_false, hrest, Option.map_some']

/-- Parsing the bare-form payload recovers the id, for every id. -/
theorem fromScan_bare (id : String) :
    fromScanPayload ("supplychain:product:" ++ id) = some id := by
  have h1 : qrScheme.data.isPrefixOf ("supplychain:product:" ++ id).data = true := by
    rw [String.data_append, List.isPrefixOf_iff_prefix]
    exact List.prefix_append _ _
  rw [fromScanPayload, h1]
  simp only [if_true, String.data_append]
  have h2 : ("supplychain:product:".data ++ id.data).drop qrScheme.data.length = id.data :=
    List.drop_left _ _
  rw [h2]

/-- The bare-form prefix contains no slash, so a payload of the shape
`u ++ '/' :: rest` can only start with it if `u` already does. -/
theorem scheme_not_prefix_slash (u rest : List Char) (h : ¬ (qrScheme.data <+: u)) :
    ¬ (qrScheme.data <+: u ++ '/' :: rest) := by
  intro hp
  rcases le_or_lt qrScheme.data.length u.length with hle | hlt
  · exact h (prefix_of_append_of_len_le hp hle)
  · have ht := List.prefix_iff_eq_take.mp hp
    rw [List.take_append_eq_append_take] at ht
    have hu : u.take qrScheme.data.length = u := by
      exact List.take_of_length_le (Nat.le_of_lt hlt)
    have hpos : qrScheme.data.length - u.length = (qrScheme.data.length - u.length - 1) + 1 := by
      omega
    rw [hu, hpos, List.take_succ_cons] at ht
    have hmem : '/' ∈ qrScheme.data := by
      rw [ht]
      exact List.mem_append_right _ (List.mem_cons_self _ _)
    exact absurd hmem (by decide)

/-- `splitFirst` fails when the pattern occurs nowhere in the input. -/
theorem splitFirst_none_of_not_infix (pat : List Char) :
    ∀ l : List Char, ¬ (pat <:+: l) → splitFirst pat l = none := by
  intro l
  induction l with
  | nil =>
    intro h
    have h1 : pat.isPrefixOf ([] : List Char) = false := by
      rw [Bool.eq_false_iff, Ne, List.isPrefixOf_iff_prefix]
      exact fun hp => h hp.isInfix
    rw [splitFirst, h1]
    simp
  | cons c cs ih =>
    intro h
    have h1 : pat.isPrefixOf (c :: cs) = false := by
      rw [Bool.eq_false_iff, Ne, List.isPrefixOf_iff_prefix]
      exact fun hp => h hp.isInfix
    have h2 : splitFirst pat cs = none := ih (fun hi => h (List.infix_cons hi))
    rw [splitFirst, h1]
    simp [h2]

/-- `splitFirst` succeeds whenever the pattern occurs in the input. -/
theorem splitFirst_isSome_of_infix (pat : List Char) :
    ∀ l : List Char, pat <:+: l → (splitFirst pat l).isSome = true := by
  intro l
  induction l with
  | nil =>
    intro h
    have hpat : pat = [] := by
      obtain ⟨s, t, hst⟩ := h
      exact (List.append_eq_nil.mp (List.append_eq_nil.mp hst).1).2
    subst hpat
    rw [splitFirst]
    simp [List.isPrefixOf_iff_prefix]
  | cons c cs ih =>
    intro h
    by_cases hp : pat.isPrefixOf (c :: cs) = true
    · rw [splitFirst, hp]
      simp
    · have hcs : pat <:+: cs := by
        obtain ⟨s, t, hst⟩ := h
        cases s with
        | nil =>
          exfalso
          apply hp
          rw [List.isPrefixOf_iff_prefix]
          exact ⟨t, by simpa using hst⟩
        | cons a as =>
          have : as ++ pat ++ t = cs := by
            have := hst
            simp only [List.cons_append] at this
            exact (List.cons.injEq _ _ _ _).mp this |>.2
          exact ⟨as, t, this⟩
      have h2 := ih hcs
      rw [splitFirst, Bool.eq_false_iff.mpr hp]
      simp only [Bool.false_eq_true, if_false]
      simpa using h2

/-- Parsing the URL-form payload recovers the id whenever the app URL
contains no occurrence of the marker and does not itself start with the
bare-form prefix. -/
theorem fromScan_url (id u : String) (hinf : ¬ (qrMarker.data <:+: u.data))
    (hpre : ¬ (qrScheme.data <+: u.data)) :
    fromScanPayload (u ++ "/verify?id=" ++ id) = some id := by
  have hdata : (u ++ "/verify?id=" ++ id).data = u.data ++ qrMarker.data ++ id.data := by
    rw [String.data_append, String.data_append]
    rfl
  have hmk : qrMarker.data = '/' :: "verify?id=".data := rfl
  have hnotpre : qrScheme.data.isPrefixOf (u ++ "/verify?id=" ++ id).data = false := by
    rw [Bool.eq_false_iff, Ne, List.isPrefixOf_iff_prefix, hdata]
    intro hp
    apply scheme_not_prefix_slash u.data ("verify?id=".data ++ id.data) hpre
    simpa [hmk, List.append_assoc] using hp
  rw [fromScanPayload, hnotpre]
  simp only [Bool.false_eq_true, if_false]
  have hsp := splitFirst_append_of_not_infix qrMarker.data (by decide)
    qrMarker_no_border u.data id.data hinf
  rw [hdata, hsp]

/-- C5 counterexample: the URL form is not injective, so no parser can
round-trip it for every app URL. With the app URL
`https://a/verify?id=0` (which itself contains the marker) and id `1`,
the payload coincides with the one for app URL `https://a` and id
`0/verify?id=1`; parsing it yields `0/verify?id=1`, not `1`. -/
theorem qr_url_roundtrip_fails :
    generateProductQrData "1" (some "https://a/verify?id=0")
      = generateProductQrData "0/verify?id=1" (some "https://a") ∧
    fromScanPayload (generateProductQrData "1" (some "https://a/verify?id=0"))
      = some "0/verify?id=1" ∧
    ("0/verify?id=1" : String) ≠ "1" := by
  exact ⟨by decide, by decide, by decide⟩

/-- C5 amended (the parser direction is modelled from the spec, as only
`toScanPayload` exists in the sources): the bare-form payload
round-trips for every id; the URL-form payload round-trips for every
app URL that contains no occurrence of `/verify?id=` and does not start
with `supplychain:product:`; and `fromScanPayload` accepts every string
of either grammar and rejects every other string with a parse error. -/
theorem fromScanPayload_spec :
    (∀ id : String, fromScanPayload (generateProductQrData id none) = some id) ∧
    (∀ id u : String, ¬ (qrMarker.data <:+: u.data) → ¬ (qrScheme.data <+: u.data) →
      fromScanPayload (generateProductQrData id (some u)) = some id) ∧
    (∀ s : String, (qrScheme.data <+: s.data ∨ qrMarker.data <:+: s.data) →
      (fromScanPayload s).isSome = true) ∧
    (∀ s : String, ¬ (qrScheme.data <+: s.data) → ¬ (qrMarker.data <:+: s.data) →
      fromScanPayload s = none) := by
  refine ⟨fun id => fromScan_bare id, fun id u hinf hpre => ?_,
    fun s h => ?_, fun s h1 h2 => ?_⟩
  · by_cases hu : u = ""
    · subst hu
      have hg : generateProductQrData id (some "") = "supplychain:product:" ++ id := by
        simp [generateProductQrData]
      rw [hg]
      exact fromScan_bare id
    · have hg : generateProductQrData id (some u) = u ++ "/verify?id=" ++ id := by
        simp [generateProductQrData, hu]
      rw [hg]
      exact fromScan_url id u hinf hpre
  · rcases h with h | h
    · have hb : qrScheme.data.isPrefixOf s.data = true := by
        rw [List.isPrefixOf_iff_prefix]
        exact h
      rw [fromScanPayload, hb]
      simp
    · by_cases hb : qrScheme.data.isPrefixOf s.data = true
      · rw [fromScanPayload, hb]
        simp
      · have hsome := splitFirst_isSome_of_infix qrMarker.data s.data h
        rw [fromScanPayload, Bool.eq_false_iff.mpr hb]
        simp only [Bool.false_eq_true, if_false]
        cases hsf : splitFirst qrMarker.data s.data with
        | some p => simp
        | none =>
          rw [hsf] at hsome
          simp at hsome
  · have hb : qrScheme.data.isPrefixOf s.data = false := by
      rw [Bool.eq_false_iff, Ne, List.isPrefixOf_iff_prefix]
      exact h1
    have hs := splitFirst_none_of_not_infix qrMarker.data s.data h2
    rw [fromScanPayload, hb]
    simp [hs]

/-- Witness for the amended C5: both grammars round-trip and parse at
concrete payloads, and a string in neither grammar is rejected. -/
theorem fromScanPayload_spec_witness :
    fromScanPayload (generateProductQrData "7" none) = some "7" ∧
    fromScanPayload (generateProductQrData "7" (some "https://e.com")) = some "7" ∧
    (fromScanPayload "supplychain:product:x").isSome = true ∧
    fromScanPayload "hello" = none :=
  ⟨fromScanPayload_spec.1 "7",
   fromScanPayload_spec.2.1 "7" "https://e.com" (by decide) (by decide),
   fromScanPayload_spec.2.2.1 "supplychain:product:x" (Or.inl (by decide)),
   fromScanPayload_spec.2.2.2 "hello" (by decide) (by decide)⟩
